import Mathlib

/-!
Verification of the PW-Analyst admin front-end scripts.

The definitions below are shallow embeddings of the JavaScript helper
functions in `src/static/admin/js/tag_admin.js`, `src/static/admin/js/color_picker.js`
and the unnamed parts (`part_000`: global init + tooltip, `part_001`: enhanced
color picker, `part_002`: advanced color picker widget).  Geometry is modelled
over `ℚ` (the operations used are +, −, /2 and comparisons, which are exact),
strings over `String`/`List Char`.
-/

/-- A character matching the regex class `[A-Fa-f0-9]` (equivalently `[a-f\d]`
with the `i` flag). -/
def isHexDigit (c : Char) : Bool :=
  ('0' ≤ c && c ≤ '9') || ('a' ≤ c && c ≤ 'f') || ('A' ≤ c && c ≤ 'F')

/-- Numeric value of a hexadecimal digit, as produced by JavaScript
`parseInt(·, 16)` on a single digit. -/
def hexVal (c : Char) : Nat :=
  if '0' ≤ c && c ≤ '9' then c.toNat - '0'.toNat
  else if 'a' ≤ c && c ≤ 'f' then c.toNat - 'a'.toNat + 10
  else if 'A' ≤ c && c ≤ 'F' then c.toNat - 'A'.toNat + 10
  else 0

/-- The test of the regex `/^#([A-Fa-f0-9]{6}|[A-Fa-f0-9]{3})$/` used by both
`isValidColor` implementations (`tag_admin.js` lines 230–235 and
`part_002` lines 119–130): a `#` followed by exactly 6 or exactly 3 hex
digits. -/
def isHexColor (s : String) : Bool :=
  match s.data with
  | [] => false
  | c :: rest =>
      c == '#' && (rest.length == 6 || rest.length == 3) && rest.all isHexDigit

/-- Embedding of `isValidColor` from `src/static/admin/js/tag_admin.js`
(lines 230–235): falsy (empty) strings are rejected, otherwise the hex regex
decides. -/
def isValidColor (color : String) : Bool :=
  if color = "" then false else isHexColor color

/-- Embedding of `isValidColor` from `src/unnamed/part_002` (lines 119–130).
After the same empty-string guard and hex-regex test, the code falls back to
a browser check (`tempElement.style.color = color; return tempElement.style.color !== ''`)
that accepts any string the browser parses as a CSS color.  That browser
predicate is environment state, not repository code, so it is taken as a
parameter `cssOk`. -/
def isValidColorCss (cssOk : String → Bool) (color : String) : Bool :=
  if color = "" then false
  else if isHexColor color then true
  else cssOk color

/-- The property stated by the spec's words: a '#'-prefixed 3-digit or
6-digit hexadecimal color string.  Written independently of the code, for
comparison with `isValidColor`. -/
def specHexColor (s : String) : Prop :=
  ∃ ds : List Char, s.data = '#' :: ds ∧ (ds.length = 3 ∨ ds.length = 6) ∧
    ∀ c ∈ ds, isHexDigit c = true

/-- A minimal model of a real browser's CSS color recognition: every real
browser accepts the named color `red`.  Only the value at `"red"` is used. -/
def browserCssOk (s : String) : Bool := s == "red"

/-- The optional leading `#` of the regex `/^#?...$/` in `hexToRgba`. -/
def stripHash (l : List Char) : List Char :=
  match l with
  | '#' :: rest => rest
  | l => l

/-- Embedding of `hexToRgba` from `src/static/admin/js/tag_admin.js`
(lines 237–246): the regex `/^#?([a-f\d]{2})([a-f\d]{2})([a-f\d]{2})$/i`
matches an optional `#` followed by exactly six hex digits; on a match the
three two-digit groups are parsed base 16 and interpolated into an
`rgba(r, g, b, alpha)` template, otherwise the input is returned unchanged.
`alpha` is the decimal rendering of the JavaScript alpha number, which the
template interpolates verbatim. -/
def hexToRgba (hex : String) (alpha : String) : String :=
  match stripHash hex.data with
  | [c1, c2, c3, c4, c5, c6] =>
      if [c1, c2, c3, c4, c5, c6].all isHexDigit then
        let r := 16 * hexVal c1 + hexVal c2
        let g := 16 * hexVal c3 + hexVal c4
        let b := 16 * hexVal c5 + hexVal c6
        "rgba(" ++ toString r ++ ", " ++ toString g ++ ", " ++ toString b ++
          ", " ++ alpha ++ ")"
      else hex
  | _ => hex

/-- `hexColor.replace('#', '')` in `getContrastColor`: removes the first
occurrence of `#`, if any. -/
def removeFirstHash : List Char → List Char
  | [] => []
  | c :: cs => if c = '#' then cs else c :: removeFirstHash cs

/-- JavaScript `parseInt(s, 16)`: parses the longest prefix of hexadecimal
digits; `none` models the `NaN` result when no digit is found.  (Leading
whitespace, signs and a `0x` prefix are not modelled: the call sites only
pass substrings of color strings.) -/
def parseIntHex (l : List Char) : Option Nat :=
  let digits := l.takeWhile isHexDigit
  if digits.isEmpty then none
  else some (digits.foldl (fun a c => 16 * a + hexVal c) 0)

/-! ### IEEE-754 binary64 arithmetic for the luminance computation

JavaScript numbers are IEEE-754 binary64 values and every arithmetic
operation (and every decimal literal) is correctly rounded with ties to
even.  The luminance computation in `getContrastColor` only ever produces
nonnegative values comfortably inside the normal range, so the model below
covers exactly that fragment: nonnegative normal doubles (plus zero), as an
integer mantissa scaled by a power of two, with correct rounding of exact
rational intermediate results.  Signed zeros, infinities, NaNs and
subnormals cannot arise from these inputs and are not represented. -/

/-- Fuel-driven floor of the base-2 logarithm; `natLog2Fuel n n` computes
`⌊log₂ n⌋` for `n ≥ 1` (the fuel `n` always suffices). -/
def natLog2Fuel : Nat → Nat → Nat
  | 0, _ => 0
  | fuel + 1, n => if n ≥ 2 then natLog2Fuel fuel (n / 2) + 1 else 0

/-- `⌊log₂ n⌋` for `n ≥ 1`. -/
def flog2 (n : Nat) : Nat := natLog2Fuel n n

/-- For `0 < n < d`: the smallest `k` with `n·2^k ≥ d` (fuel-driven; fuel
`d` always suffices). -/
def negExpFuel : Nat → Nat → Nat → Nat
  | 0, _, _ => 0
  | fuel + 1, n, d => if n ≥ d then 0 else negExpFuel fuel (2 * n) d + 1

/-- `⌊log₂ (n/d)⌋` for positive `n` and `d`. -/
def floorLog2Frac (n d : Nat) : Int :=
  if n ≥ d then (flog2 (n / d) : Int) else -(negExpFuel d n d : Int)

/-- A nonnegative binary64 value `m · 2^e`, with `m = 0` or
`2^52 ≤ m < 2^53`. -/
structure F64 where
  m : Nat
  e : Int
deriving DecidableEq

/-- Round the nonnegative rational `n/d` (with `d ≥ 1`) to the nearest
binary64 value, ties to even — the rounding JavaScript applies to every
arithmetic result and decimal literal.  The scaled mantissa `(n/d)/2^e`
lies in `[2^52, 2^53)`; it is rounded to an integer half-to-even, with the
carry into `2^53` renormalised. -/
def roundF64 (n d : Nat) : F64 :=
  if n = 0 then ⟨0, 0⟩
  else
    let e : Int := floorLog2Frac n d - 52
    let a := if 0 ≤ e then n else n * 2 ^ (-e).toNat
    let b := if 0 ≤ e then d * 2 ^ e.toNat else d
    let q := a / b
    let r := a % b
    let m := if 2 * r < b then q
      else if 2 * r > b then q + 1
      else if q % 2 = 0 then q else q + 1
    if m = 2 ^ 53 then ⟨2 ^ 52, e + 1⟩ else ⟨m, e⟩

/-- The dyadic value `m · 2^e` as a quotient of naturals. -/
def dyadicFrac (m : Nat) (e : Int) : Nat × Nat :=
  if 0 ≤ e then (m * 2 ^ e.toNat, 1) else (m, 2 ^ (-e).toNat)

/-- Binary64 product of a double with a small natural number (exactly
representable), as in `0.299 * r`: the exact product, correctly rounded. -/
def f64MulNat (x : F64) (k : Nat) : F64 :=
  let nd := dyadicFrac (x.m * k) x.e
  roundF64 nd.1 nd.2

/-- Binary64 addition: the exact sum of the two dyadic values, correctly
rounded. -/
def f64Add (x y : F64) : F64 :=
  let emin := if x.e ≤ y.e then x.e else y.e
  let mx := x.m * 2 ^ (x.e - emin).toNat
  let my := y.m * 2 ^ (y.e - emin).toNat
  let nd := dyadicFrac (mx + my) emin
  roundF64 nd.1 nd.2

/-- Binary64 division by a natural number, as in `… / 255`: the exact
quotient, correctly rounded. -/
def f64DivNat (x : F64) (k : Nat) : F64 :=
  let nd := dyadicFrac x.m x.e
  roundF64 nd.1 (nd.2 * k)

/-- The comparison `x > 0.5` (0.5 is exact in binary64): the exact integer
comparison of the dyadic `m · 2^e` with one half. -/
def f64GtHalf (x : F64) : Bool :=
  if 0 ≤ x.e + 1 then 1 < x.m * 2 ^ (x.e + 1).toNat
  else 2 ^ (-(x.e + 1)).toNat < x.m

/-- The binary64 evaluation of `(0.299 * r + 0.587 * g + 0.114 * b) / 255`
exactly as JavaScript performs it: the literals `0.299`, `0.587`, `0.114`
are the correctly rounded doubles of 299/1000, 587/1000, 114/1000; the
three products, the two left-associated sums and the final division are
each correctly rounded. -/
def jsLuminance (r g b : Nat) : F64 :=
  f64DivNat
    (f64Add (f64Add (f64MulNat (roundF64 299 1000) r)
                    (f64MulNat (roundF64 587 1000) g))
            (f64MulNat (roundF64 114 1000) b))
    255

/-- Embedding of `getContrastColor` from `src/unnamed/part_002`
(lines 132–144): strip the first `#`, parse `substr(0,2)`, `substr(2,2)`,
`substr(4,2)` base 16, form the binary64 luminance
`(0.299·r + 0.587·g + 0.114·b)/255` and return black iff it exceeds `0.5`.
When any channel parses to `NaN` the luminance is `NaN` and the comparison
`NaN > 0.5` is false, so the `none` branch returns `#ffffff`. -/
def getContrastColor (hexColor : String) : String :=
  let hex := removeFirstHash hexColor.data
  match parseIntHex ((hex.drop 0).take 2), parseIntHex ((hex.drop 2).take 2),
        parseIntHex ((hex.drop 4).take 2) with
  | some r, some g, some b =>
      if f64GtHalf (jsLuminance r g b) then "#000000" else "#ffffff"
  | _, _, _ => "#ffffff"

example : isValidColor "#ff0000" = true := by decide
example : isValidColor "#f00" = true := by decide
example : isValidColor "red" = false := by decide
example : isValidColor "" = false := by decide
example : hexToRgba "#ff0000" "0.5" = "rgba(255, 0, 0, 0.5)" := by decide
example : hexToRgba "#f00" "1" = "#f00" := by decide

/-! ## Tooltip positioning

`showTooltip` in `src/unnamed/part_000` (lines 234–250) and the tooltip
placement inside `createSmartTooltip` in `src/static/admin/js/tag_admin.js`
(lines 379–394) contain character-for-character the same positioning code;
the two definitions below embed those lines once, shared by both. -/

/-- The fields of `getBoundingClientRect()` read by the positioning code
(`left`, `top`, `width`, `bottom`).  The code reads `top` and `bottom`
independently, so both are kept as fields. -/
structure Rect where
  left : ℚ
  top : ℚ
  width : ℚ
  bottom : ℚ

/-- The final `left` assigned to the tooltip: candidate
`rect.left + rect.width/2 − tooltipWidth/2`, then `if (left < 8) left = 8`,
then `if (left + tooltipWidth > innerWidth − 8) left = innerWidth − tooltipWidth − 8`. -/
def tooltipLeft (rect : Rect) (tooltipWidth innerWidth : ℚ) : ℚ :=
  let l0 := rect.left + rect.width / 2 - tooltipWidth / 2
  let l1 := if l0 < 8 then 8 else l0
  if l1 + tooltipWidth > innerWidth - 8 then innerWidth - tooltipWidth - 8 else l1

/-- The final `top` assigned to the tooltip: candidate `rect.bottom + 8`,
flipped to `rect.top − tooltipHeight − 8` when
`top + tooltipHeight > innerHeight − 8`. -/
def tooltipTop (rect : Rect) (tooltipHeight innerHeight : ℚ) : ℚ :=
  let t0 := rect.bottom + 8
  if t0 + tooltipHeight > innerHeight - 8 then rect.top - tooltipHeight - 8 else t0

/-! ## Color history (`src/unnamed/part_002`, lines 164–187) -/

/-- `MAX_HISTORY` in `initializeColorHistory`. -/
def MAX_HISTORY : Nat := 10

/-- Embedding of `addToColorHistory`: filter out the color if already present,
`unshift` it to the front, `slice(0, MAX_HISTORY)`.  The stored list is the
JSON array in local storage, modelled as a `List String`. -/
def addToColorHistory (color : String) (history : List String) : List String :=
  let filtered := history.filter (fun c => c ≠ color)
  (color :: filtered).take MAX_HISTORY

/-- Stored histories reachable from the empty list (`getColorHistory` returns
`[]` when the storage key is absent) by repeated `addToColorHistory` calls. -/
inductive ReachableHistory : List String → Prop
  | empty : ReachableHistory []
  | add (color : String) (h : List String) :
      ReachableHistory h → ReachableHistory (addToColorHistory color h)

/-! ## Color-preset click handlers

Two implementations handle clicks on `.color-preset` buttons:
`src/unnamed/part_001` (lines 10–45), which refuses presets carrying the
`used` class, and `src/static/admin/js/color_picker.js` (lines 7–28), which
has no such guard.  The DOM state a click can change is the hidden color
input's value plus the dispatched `change` events, modelled below; whether
`container.querySelector` finds the input is the `hasInput` flag. -/

/-- The click target: its class list and its `data-color` attribute. -/
structure ClickTarget where
  classes : List String
  dataColor : String

/-- The state the handler may mutate: the hidden input's value and the number
of `change` events dispatched on it. -/
structure PickerState where
  inputValue : String
  changeCount : Nat
deriving DecidableEq

/-- Embedding of the click handler installed by `initColorPicker` in
`src/unnamed/part_001`: on a `.color-preset` target, a target also carrying
`used` only triggers `showColorUsedMessage` (a transient notification) and
returns; otherwise, when the input is found, its value is set to the
target's `data-color` and a `change` event is dispatched. -/
def colorPresetClickEnhanced (t : ClickTarget) (hasInput : Bool) (s : PickerState) :
    PickerState :=
  if t.classes.contains "color-preset" then
    if t.classes.contains "used" then s
    else if hasInput then
      { inputValue := t.dataColor, changeCount := s.changeCount + 1 }
    else s
  else s

/-- Embedding of the click handler installed by `initColorPicker` in
`src/static/admin/js/color_picker.js`: same as the enhanced handler but with
no `used` guard. -/
def colorPresetClickBasic (t : ClickTarget) (hasInput : Bool) (s : PickerState) :
    PickerState :=
  if t.classes.contains "color-preset" then
    if hasInput then
      { inputValue := t.dataColor, changeCount := s.changeCount + 1 }
    else s
  else s

/-! ## Exported global namespaces

The property names of the objects assigned to `window.*` at the end of each
script. -/

/-- `window.PWAnalystInit` (`src/unnamed/part_000`, lines 311–316). -/
def PWAnalystInit_keys : List String := ["initialize", "config", "logger", "version"]

/-- `window.PWAnalystTestResults` (`src/static/admin/js/tag_admin.js`
test-results section, lines 538–541). -/
def PWAnalystTestResults_keys : List String := ["initialize", "version"]

/-- `window.PWAnalystTagAdmin` (`src/static/admin/js/tag_admin.js`,
lines 249–253). -/
def PWAnalystTagAdmin_keys : List String :=
  ["enhanceTagDisplay", "initializeTagColorPreview", "addTagUtilities"]

/-- `window.PWAnalystColorPicker` (`src/unnamed/part_002`, lines 233–238). -/
def PWAnalystColorPicker_keys : List String := ["initialize", "addToHistory"]

/-! ## Global tooltip lifecycle (`src/unnamed/part_000`, lines 206–269)

`showTooltip` / `hideTooltip` manage a module-level `currentTooltip`
reference.  `hideTooltip` sets the current tooltip's opacity to `0` and
schedules (via `setTimeout(…, 200)`) a callback that removes whatever
`currentTooltip` points to *at fire time* from the document and nulls the
reference.  `showTooltip` first calls `hideTooltip`, then creates a fresh
element, appends it to `document.body` and makes it current.

The model: tooltip elements are identified by a fresh `Nat` id; `fadingOut`
records that `hideTooltip` set the element's opacity to `0` (the fade-in
from the initial opacity `0` to `1` via `requestAnimationFrame` does not
remove or hide elements and is not tracked).  `timers` counts pending
removal callbacks; `fireRemovalTimer` runs one of them. -/

/-- A `.global-tooltip` element present in the document. -/
structure TElem where
  id : Nat
  fadingOut : Bool
deriving DecidableEq

/-- The document, the `currentTooltip` reference, the pending
`setTimeout` removal callbacks, and a fresh-id counter. -/
structure TooltipSys where
  doc : List TElem
  current : Option Nat
  timers : Nat
  nextId : Nat
deriving DecidableEq

/-- Page state before any tooltip is shown. -/
def initTooltipSys : TooltipSys := ⟨[], none, 0, 0⟩

/-- `hideTooltip` (lines 259–269): when a current tooltip exists, set its
opacity to `0` and schedule its removal after 200ms; the `currentTooltip`
reference is not cleared until that callback fires. -/
def hideTooltip (s : TooltipSys) : TooltipSys :=
  match s.current with
  | none => s
  | some c =>
      { s with
        doc := s.doc.map (fun e => if e.id = c then { e with fadingOut := true } else e),
        timers := s.timers + 1 }

/-- `showTooltip` (lines 209–257): call `hideTooltip()`, then create a fresh
element, append it to the document body and make it current. -/
def showTooltip (s : TooltipSys) : TooltipSys :=
  let s1 := hideTooltip s
  { s1 with
    doc := s1.doc ++ [⟨s1.nextId, false⟩],
    current := some s1.nextId,
    nextId := s1.nextId + 1 }

/-- One pending 200ms callback fires (lines 262–267): if `currentTooltip`
is non-null and still in the document, it is removed; then the reference is
nulled. -/
def fireRemovalTimer (s : TooltipSys) : TooltipSys :=
  if s.timers = 0 then s
  else
    let doc' := match s.current with
      | some c => s.doc.filter (fun e => e.id ≠ c)
      | none => s.doc
    { s with doc := doc', current := none, timers := s.timers - 1 }

/-- The events that can happen to the tooltip system: a `mouseenter` showing
a tooltip, a `mouseleave` hiding it, or a pending removal timer firing. -/
inductive TStep : TooltipSys → TooltipSys → Prop
  | showEvent (s : TooltipSys) : TStep s (showTooltip s)
  | hideEvent (s : TooltipSys) : TStep s (hideTooltip s)
  | fireEvent (s : TooltipSys) : TStep s (fireRemovalTimer s)

/-- States reachable from the initial page state. -/
inductive TReachable : TooltipSys → Prop
  | init : TReachable initTooltipSys
  | step {s t : TooltipSys} : TReachable s → TStep s t → TReachable t

/-- The tooltips in the document that are not fading out. -/
def liveTooltips (s : TooltipSys) : List TElem :=
  s.doc.filter (fun e => !e.fadingOut)

/-- Invariant of the tooltip system: every element not fading out is the one
`currentTooltip` points to, element ids are distinct, and ids are below the
fresh-id counter. -/
def TInv (s : TooltipSys) : Prop :=
  (∀ e ∈ s.doc, e.fadingOut = false → s.current = some e.id) ∧
  (s.doc.map TElem.id).Nodup ∧
  (∀ e ∈ s.doc, e.id < s.nextId)

/-! # Theorems -/

/-- The hex regex test agrees with the spec's wording of a '#'-prefixed
3- or 6-digit hex color. -/
lemma isHexColor_iff (s : String) : isHexColor s = true ↔ specHexColor s := by
  obtain ⟨l⟩ := s
  cases l with
  | nil =>
      constructor
      · intro h; exact absurd h (by decide)
      · rintro ⟨ds, hds, -, -⟩
        exact absurd hds (by simp [String.data])
  | cons c cs =>
      constructor
      · intro h
        have h' : (c == '#' && (cs.length == 6 || cs.length == 3) &&
            cs.all isHexDigit) = true := h
        simp only [Bool.and_eq_true, Bool.or_eq_true, beq_iff_eq,
          List.all_eq_true] at h'
        obtain ⟨⟨hc, hlen⟩, hall⟩ := h'
        subst hc
        exact ⟨cs, rfl, hlen.symm, hall⟩
      · rintro ⟨ds, hds, hlen, hall⟩
        have hds' : c :: cs = '#' :: ds := hds
        injection hds' with h1 h2
        subst h1; subst h2
        show (('#' : Char) == '#' && (cs.length == 6 || cs.length == 3) &&
            cs.all isHexDigit) = true
        simp only [Bool.and_eq_true, Bool.or_eq_true, beq_iff_eq,
          List.all_eq_true]
        exact ⟨⟨trivial, hlen.symm⟩, hall⟩

/-- The empty-string guard in `isValidColor` is redundant: the function
agrees with the bare regex test everywhere. -/
lemma isValidColor_eq_isHexColor (s : String) : isValidColor s = isHexColor s := by
  unfold isValidColor
  by_cases h : s = ""
  · subst h; decide
  · rw [if_neg h]

/-- C3: corrected.  The claim holds for the `tag_admin.js` implementation:
it accepts exactly the '#'-prefixed 3- or 6-digit hex strings.  The
`part_002` implementation additionally accepts any non-hex, non-empty
string its browser CSS check accepts. -/
theorem C3_isValidColor_amended :
    (∀ s : String, isValidColor s = true ↔ specHexColor s) ∧
    (∀ (cssOk : String → Bool) (s : String),
      isValidColorCss cssOk s = true ↔
        (specHexColor s ∨ (isHexColor s = false ∧ s ≠ "" ∧ cssOk s = true))) := by
  constructor
  · intro s
    rw [isValidColor_eq_isHexColor]
    exact isHexColor_iff s
  · intro cssOk s
    unfold isValidColorCss
    by_cases he : s = ""
    · subst he
      rw [if_pos rfl]
      constructor
      · intro h; exact absurd h (by decide)
      · rintro (⟨ds, hds, -, -⟩ | ⟨-, hne, -⟩)
        · exact absurd hds (by simp [String.data])
        · exact absurd rfl hne
    · rw [if_neg he]
      by_cases hh : isHexColor s = true
      · rw [if_pos hh]
        simp only [true_iff]
        exact Or.inl ((isHexColor_iff s).mp hh)
      · rw [if_neg hh]
        have hh' : isHexColor s = false := by
          cases hval : isHexColor s
          · rfl
          · exact absurd hval hh
        constructor
        · intro hcss
          exact Or.inr ⟨hh', he, hcss⟩
        · rintro (hspec | ⟨-, -, hcss⟩)
          · exact absurd ((isHexColor_iff s).mpr hspec) hh
          · exact hcss

/-- C3: the claim as stated is false for the `part_002` implementation: with
the browser accepting the CSS color name `red` (every real browser does),
`isValidColor("red")` returns `true`, yet `red` is not a '#'-prefixed hex
string. -/
theorem C3_isValidColor_counterexample :
    isValidColorCss browserCssOk "red" = true ∧ ¬ specHexColor "red" := by
  refine ⟨by decide, ?_⟩
  rintro ⟨ds, hds, -, -⟩
  have h : ("red" : String).data = ['r', 'e', 'd'] := rfl
  rw [h] at hds
  injection hds with h1 _
  exact absurd h1 (by decide)

/-- C8: the claim as stated is false: the object assigned to
`window.PWAnalystTagAdmin` has no `initialize` property. -/
theorem C8_initialize_counterexample : "initialize" ∉ PWAnalystTagAdmin_keys := by
  decide

/-- C8: corrected.  `PWAnalystInit`, `PWAnalystTestResults` and
`PWAnalystColorPicker` each expose an `initialize` entry point;
`PWAnalystTagAdmin` instead exposes its three enhancement functions
(`enhanceTagDisplay`, `initializeTagColorPreview`, `addTagUtilities`) and no
property named `initialize`. -/
theorem C8_initialize_amended :
    "initialize" ∈ PWAnalystInit_keys ∧
    "initialize" ∈ PWAnalystTestResults_keys ∧
    "initialize" ∈ PWAnalystColorPicker_keys ∧
    "initialize" ∉ PWAnalystTagAdmin_keys ∧
    "enhanceTagDisplay" ∈ PWAnalystTagAdmin_keys ∧
    "initializeTagColorPreview" ∈ PWAnalystTagAdmin_keys ∧
    "addTagUtilities" ∈ PWAnalystTagAdmin_keys := by
  decide

/-- C4: confirmed.  On a '#'-prefixed string of six hex digits, `hexToRgba`
returns `rgba(r, g, b, alpha)` with the three two-digit groups parsed base
16. -/
theorem C4_hexToRgba_sixDigit (d1 d2 d3 d4 d5 d6 : Char)
    (h : [d1, d2, d3, d4, d5, d6].all isHexDigit = true) (alpha : String) :
    hexToRgba (String.mk ['#', d1, d2, d3, d4, d5, d6]) alpha =
      "rgba(" ++ toString (16 * hexVal d1 + hexVal d2) ++ ", " ++
        toString (16 * hexVal d3 + hexVal d4) ++ ", " ++
        toString (16 * hexVal d5 + hexVal d6) ++ ", " ++ alpha ++ ")" := by
  unfold hexToRgba
  have hs : stripHash (String.mk ['#', d1, d2, d3, d4, d5, d6]).data =
      [d1, d2, d3, d4, d5, d6] := rfl
  rw [hs]
  simp only [h, if_true]

/-- C4 witness: `hexToRgba('#ff0000', 0.5)` is `rgba(255, 0, 0, 0.5)`. -/
theorem C4_hexToRgba_witness :
    hexToRgba "#ff0000" "0.5" = "rgba(255, 0, 0, 0.5)" := by
  have h := C4_hexToRgba_sixDigit 'f' 'f' '0' '0' '0' '0' (by decide) "0.5"
  exact h

/-- C9: confirmed.  A '#'-prefixed 3-digit hex string (a 4-character string
accepted by `isValidColor`) is returned by `hexToRgba` unchanged: the
conversion regex only matches six hex digits. -/
theorem C9_threeDigit_passthrough (c alpha : String)
    (hv : isValidColor c = true) (hlen : c.data.length = 4) :
    hexToRgba c alpha = c := by
  have hx : isHexColor c = true := by
    rw [← isValidColor_eq_isHexColor]; exact hv
  obtain ⟨ds, hds, hl, -⟩ := (isHexColor_iff c).mp hx
  have hds3 : ds.length = 3 := by
    rcases hl with h3 | h6
    · exact h3
    · rw [hds] at hlen
      simp [h6] at hlen
  obtain ⟨a, b, e, rfl⟩ := List.length_eq_three.mp hds3
  unfold hexToRgba
  rw [show stripHash c.data = [a, b, e] by rw [hds]; rfl]

/-- C9 witness: `#f00` passes validation and passes through `hexToRgba`
un-converted. -/
theorem C9_threeDigit_witness :
    isValidColor "#f00" = true ∧ hexToRgba "#f00" "1" = "#f00" :=
  ⟨by decide, C9_threeDigit_passthrough "#f00" "1" (by decide) (by decide)⟩

/-- C7: confirmed.  The candidate top is the trigger's bottom edge plus 8;
exactly when that placement would cross `innerHeight − 8` the tooltip is
flipped above the trigger, to `rect.top − tooltipHeight − 8`. -/
theorem C7_top_placement (rect : Rect) (tooltipHeight innerHeight : ℚ) :
    (rect.bottom + 8 + tooltipHeight > innerHeight - 8 →
      tooltipTop rect tooltipHeight innerHeight = rect.top - tooltipHeight - 8) ∧
    (¬ (rect.bottom + 8 + tooltipHeight > innerHeight - 8) →
      tooltipTop rect tooltipHeight innerHeight = rect.bottom + 8) := by
  unfold tooltipTop
  constructor
  · intro h; rw [if_pos h]
  · intro h; rw [if_neg h]

/-- C7 witness: a trigger with bottom edge 100 in a 200-high viewport keeps a
50-high tooltip below (top 108); in a 120-high viewport it flips above
(top −38 for trigger top 20). -/
theorem C7_top_placement_witness :
    tooltipTop ⟨0, 20, 0, 100⟩ 50 200 = 108 ∧
    tooltipTop ⟨0, 20, 0, 100⟩ 50 120 = 20 - 50 - 8 := by
  constructor
  · have h := (C7_top_placement ⟨0, 20, 0, 100⟩ 50 200).2 (by norm_num)
    rw [h]; norm_num
  · exact (C7_top_placement ⟨0, 20, 0, 100⟩ 50 120).1 (by norm_num)

/-- C1: the claim as stated is false: with a 100-wide tooltip in a 20-wide
viewport (interval `[8, −88]`), the assigned left is −88, below the lower
bound 8. -/
theorem C1_left_counterexample : tooltipLeft ⟨0, 0, 0, 0⟩ 100 20 < 8 := by
  have h1 : ((0 : ℚ) + 0 / 2 - 100 / 2) < 8 := by norm_num
  have h2 : ((8 : ℚ) + 100 > 20 - 8) := by norm_num
  simp only [tooltipLeft]
  rw [if_pos h1, if_pos h2]
  norm_num

/-- C1: corrected.  Whenever the tooltip fits, i.e.
`tooltipWidth + 16 ≤ innerWidth`, the assigned left lies in
`[8, innerWidth − tooltipWidth − 8]`; when the tooltip is wider than
`innerWidth − 16` the final clamp assigns `innerWidth − tooltipWidth − 8`,
which is below 8. -/
theorem C1_left_clamped (rect : Rect) (tooltipWidth innerWidth : ℚ)
    (h : tooltipWidth + 16 ≤ innerWidth) :
    8 ≤ tooltipLeft rect tooltipWidth innerWidth ∧
    tooltipLeft rect tooltipWidth innerWidth ≤ innerWidth - tooltipWidth - 8 := by
  simp only [tooltipLeft]
  by_cases h1 : rect.left + rect.width / 2 - tooltipWidth / 2 < 8
  · rw [if_pos h1]
    by_cases h2 : (8 : ℚ) + tooltipWidth > innerWidth - 8
    · rw [if_pos h2]; constructor <;> linarith
    · rw [if_neg h2]; push_neg at h2; constructor <;> linarith
  · rw [if_neg h1]
    push_neg at h1
    by_cases h2 : rect.left + rect.width / 2 - tooltipWidth / 2 + tooltipWidth >
        innerWidth - 8
    · rw [if_pos h2]; constructor <;> linarith
    · rw [if_neg h2]; push_neg at h2; constructor <;> linarith

/-- C1 witness: a 100-wide tooltip in a 500-wide viewport, trigger centered
at 0: the candidate −50 is clamped to 8, inside `[8, 392]`. -/
theorem C1_left_clamped_witness :
    8 ≤ tooltipLeft ⟨0, 0, 0, 0⟩ 100 500 ∧
    tooltipLeft ⟨0, 0, 0, 0⟩ 100 500 ≤ 500 - 100 - 8 :=
  C1_left_clamped ⟨0, 0, 0, 0⟩ 100 500 (by norm_num)

/-- `addToColorHistory` never returns more than `MAX_HISTORY` entries. -/
lemma addToColorHistory_length_le (color : String) (h : List String) :
    (addToColorHistory color h).length ≤ 10 := by
  unfold addToColorHistory MAX_HISTORY
  calc ((color :: h.filter (fun c => c ≠ color)).take 10).length
      ≤ 10 := by rw [List.length_take]; omega

/-- `addToColorHistory` preserves freedom from duplicates. -/
lemma addToColorHistory_nodup (color : String) (h : List String)
    (hn : h.Nodup) : (addToColorHistory color h).Nodup := by
  unfold addToColorHistory
  apply List.Nodup.sublist (List.take_sublist _ _)
  rw [List.nodup_cons]
  refine ⟨?_, hn.filter _⟩
  intro hmem
  have := (List.mem_filter.mp hmem).2
  simp at this

/-- The filtered tail of `addToColorHistory` contains no copy of the added
color, so the result holds exactly one copy, at the front. -/
lemma addToColorHistory_front (color : String) (h : List String) :
    (addToColorHistory color h).head? = some color ∧
    (addToColorHistory color h).count color = 1 ∧
    (addToColorHistory color h).tail.Sublist h := by
  unfold addToColorHistory MAX_HISTORY
  have htake : (color :: h.filter (fun c => c ≠ color)).take 10 =
      color :: (h.filter (fun c => c ≠ color)).take 9 := rfl
  rw [htake]
  refine ⟨rfl, ?_, ?_⟩
  · rw [List.count_cons_self]
    have hz : ((h.filter (fun c => c ≠ color)).take 9).count color = 0 := by
      rw [List.count_eq_zero]
      intro hmem
      have := (List.mem_filter.mp (List.mem_of_mem_take hmem)).2
      simp at this
    rw [hz]
  · exact ((List.take_sublist _ _).trans (List.filter_sublist _))

/-- C2: confirmed.  Every stored history reachable from the empty list has at
most 10 entries and no duplicates, and adding a color always places exactly
one copy of it at the front, the remaining entries being previous entries in
their previous order (so an already-present color is moved, not duplicated). -/
theorem C2_colorHistory_invariant (h : List String) (hr : ReachableHistory h) :
    h.length ≤ 10 ∧ h.Nodup ∧
    ∀ color : String,
      (addToColorHistory color h).head? = some color ∧
      (addToColorHistory color h).count color = 1 ∧
      (addToColorHistory color h).tail.Sublist h := by
  have hinv : h.length ≤ 10 ∧ h.Nodup := by
    induction hr with
    | empty => exact ⟨by simp, List.nodup_nil⟩
    | add color h' _ ih =>
        exact ⟨addToColorHistory_length_le color h',
          addToColorHistory_nodup color h' ih.2⟩
  exact ⟨hinv.1, hinv.2, fun color => addToColorHistory_front color h⟩

/-- C2 witness: the invariant applied to the reachable history
`["#ef4444"]`, adding the same color again. -/
theorem C2_colorHistory_witness :
    (addToColorHistory "#ef4444" (addToColorHistory "#ef4444" [])).head? =
        some "#ef4444" ∧
    (addToColorHistory "#ef4444" (addToColorHistory "#ef4444" [])).count
        "#ef4444" = 1 ∧
    (addToColorHistory "#ef4444" (addToColorHistory "#ef4444" [])).tail.Sublist
        (addToColorHistory "#ef4444" []) :=
  (C2_colorHistory_invariant (addToColorHistory "#ef4444" [])
    (ReachableHistory.add "#ef4444" [] ReachableHistory.empty)).2.2 "#ef4444"

/-- C5: the claim as stated is false: the `color_picker.js` click handler has
no `used` guard, so a click on a preset carrying the `used` class still
overwrites the input value (here `#000000` becomes `#ef4444`) and dispatches
a `change` event. -/
theorem C5_usedPreset_counterexample :
    (["color-preset", "used"] : List String).contains "used" = true ∧
    colorPresetClickBasic ⟨["color-preset", "used"], "#ef4444"⟩ true
        ⟨"#000000", 0⟩ = ⟨"#ef4444", 1⟩ := by
  decide

/-- C5: corrected.  The enhanced handler in `part_001` leaves the input state
untouched on presets carrying the `used` class, and any click that changes
the state comes from a `.color-preset` target without the `used` class; the
basic `color_picker.js` handler lacks the guard. -/
theorem C5_usedPreset_amended :
    (∀ (t : ClickTarget) (hasInput : Bool) (s : PickerState),
      t.classes.contains "used" = true →
        colorPresetClickEnhanced t hasInput s = s) ∧
    (∀ (t : ClickTarget) (hasInput : Bool) (s : PickerState),
      colorPresetClickEnhanced t hasInput s ≠ s →
        t.classes.contains "used" = false ∧
        t.classes.contains "color-preset" = true) := by
  constructor
  · intro t hasInput s hused
    unfold colorPresetClickEnhanced
    by_cases hp : t.classes.contains "color-preset" = true
    · rw [if_pos hp, if_pos hused]
    · rw [if_neg hp]
  · intro t hasInput s hchange
    unfold colorPresetClickEnhanced at hchange
    by_cases hp : t.classes.contains "color-preset" = true
    · rw [if_pos hp] at hchange
      by_cases hused : t.classes.contains "used" = true
      · rw [if_pos hused] at hchange
        exact absurd rfl hchange
      · refine ⟨?_, hp⟩
        cases hval : t.classes.contains "used"
        · rfl
        · exact absurd hval hused
    · rw [if_neg hp] at hchange
      exact absurd rfl hchange

/-- C5 witness: a used preset clicked under the enhanced handler leaves the
state unchanged. -/
theorem C5_usedPreset_witness :
    colorPresetClickEnhanced ⟨["color-preset", "used"], "#ef4444"⟩ true
        ⟨"#000000", 0⟩ = ⟨"#000000", 0⟩ :=
  C5_usedPreset_amended.1 ⟨["color-preset", "used"], "#ef4444"⟩ true
    ⟨"#000000", 0⟩ (by decide)

/-- `parseIntHex` on a pair of hex digits yields the base-16 value. -/
lemma parseIntHex_pair (c1 c2 : Char) (h1 : isHexDigit c1 = true)
    (h2 : isHexDigit c2 = true) :
    parseIntHex [c1, c2] = some (16 * hexVal c1 + hexVal c2) := by
  unfold parseIntHex
  rw [show ([c1, c2].takeWhile isHexDigit) = [c1, c2] by
    simp [List.takeWhile, h1, h2]]
  simp [List.foldl]

/-- C10: the claim as stated is false: `#da3af8` parses to channels
(218, 58, 248) with 299·218 + 587·58 + 114·248 = 127500, which is not
greater than 127500, so the claim's threshold requires `#ffffff`; but the
binary64 luminance rounds to the double just above 0.5, and the code
returns `#000000`. -/
theorem C10_contrast_counterexample :
    getContrastColor "#da3af8" = "#000000" ∧
    16 * hexVal 'd' + hexVal 'a' = 218 ∧
    16 * hexVal '3' + hexVal 'a' = 58 ∧
    16 * hexVal 'f' + hexVal '8' = 248 ∧
    ¬ 299 * 218 + 587 * 58 + 114 * 248 > 127500 := by
  refine ⟨by decide, by decide, by decide, by decide, by decide⟩

/-- C10: corrected.  On a '#'-prefixed 6-digit hex string,
`getContrastColor` is total and returns `#000000` or `#ffffff`, and it
returns `#000000` exactly when the IEEE-754 binary64 evaluation of
`(0.299·r + 0.587·g + 0.114·b)/255` exceeds 0.5.  The float comparison
agrees with the exact-rational threshold `299·r + 587·g + 114·b > 127500`
away from the boundary, but not at it: at `#da3af8` the sum is exactly
127500 yet rounding pushes the float luminance above 0.5. -/
theorem C10_contrast_amended (d1 d2 d3 d4 d5 d6 : Char)
    (hall : [d1, d2, d3, d4, d5, d6].all isHexDigit = true) :
    (getContrastColor (String.mk ['#', d1, d2, d3, d4, d5, d6]) = "#000000" ∨
     getContrastColor (String.mk ['#', d1, d2, d3, d4, d5, d6]) = "#ffffff") ∧
    (getContrastColor (String.mk ['#', d1, d2, d3, d4, d5, d6]) = "#000000" ↔
      f64GtHalf (jsLuminance (16 * hexVal d1 + hexVal d2)
        (16 * hexVal d3 + hexVal d4) (16 * hexVal d5 + hexVal d6)) = true) := by
  simp only [List.all_cons, List.all_nil, Bool.and_eq_true] at hall
  obtain ⟨h1, h2, h3, h4, h5, h6, -⟩ := hall
  have hrm : removeFirstHash (String.mk ['#', d1, d2, d3, d4, d5, d6]).data =
      [d1, d2, d3, d4, d5, d6] := rfl
  have e1 : parseIntHex (([d1, d2, d3, d4, d5, d6].drop 0).take 2) =
      some (16 * hexVal d1 + hexVal d2) := parseIntHex_pair d1 d2 h1 h2
  have e2 : parseIntHex (([d1, d2, d3, d4, d5, d6].drop 2).take 2) =
      some (16 * hexVal d3 + hexVal d4) := parseIntHex_pair d3 d4 h3 h4
  have e3 : parseIntHex (([d1, d2, d3, d4, d5, d6].drop 4).take 2) =
      some (16 * hexVal d5 + hexVal d6) := parseIntHex_pair d5 d6 h5 h6
  simp only [getContrastColor, hrm, e1, e2, e3]
  by_cases hc : f64GtHalf (jsLuminance (16 * hexVal d1 + hexVal d2)
      (16 * hexVal d3 + hexVal d4) (16 * hexVal d5 + hexVal d6)) = true
  · rw [if_pos hc]
    exact ⟨Or.inl rfl, by simp [hc]⟩
  · rw [if_neg hc]
    refine ⟨Or.inr rfl, ?_, fun habs => absurd habs hc⟩
    intro heq
    exact absurd heq (by decide)

/-- C10 witness: pure red `#ff0000` has binary64 luminance ≈ 0.299, which
does not exceed 0.5, so the contrast color is white. -/
theorem C10_contrast_witness :
    getContrastColor (String.mk ['#', 'f', 'f', '0', '0', '0', '0']) =
      "#ffffff" := by
  have h := C10_contrast_amended 'f' 'f' '0' '0' '0' '0' (by decide)
  rcases h.1 with hb | hw
  · have hgt := h.2.mp hb
    exact absurd hgt (by decide)
  · exact hw

/-- `hideTooltip` does not touch the fresh-id counter. -/
lemma hideTooltip_nextId (s : TooltipSys) :
    (hideTooltip s).nextId = s.nextId := by
  unfold hideTooltip
  cases s.current <;> rfl

/-- `hideTooltip` does not change element ids. -/
lemma hide_doc_ids (c : Nat) (doc : List TElem) :
    ((doc.map (fun e => if e.id = c then { e with fadingOut := true } else e)).map
      TElem.id) = doc.map TElem.id := by
  rw [List.map_map]
  apply List.map_congr_left
  intro e _
  by_cases h : e.id = c <;> simp [Function.comp, h]

/-- After `hideTooltip` on a state satisfying the invariant, every tooltip
element in the document is fading out: the fade of the current tooltip
starts immediately. -/
lemma no_live_after_hide (s : TooltipSys) (hinv : TInv s) :
    ∀ e ∈ (hideTooltip s).doc, e.fadingOut = true := by
  intro e he
  unfold hideTooltip at he
  cases hc : s.current with
  | none =>
      rw [hc] at he
      cases hval : e.fadingOut
      · exact absurd (hinv.1 e he hval) (by rw [hc]; intro h; cases h)
      · rfl
  | some c =>
      rw [hc] at he
      simp only [List.mem_map] at he
      obtain ⟨e0, he0, heq⟩ := he
      by_cases hid : e0.id = c
      · rw [if_pos hid] at heq
        rw [← heq]
      · rw [if_neg hid] at heq
        subst heq
        cases hval : e0.fadingOut
        · have := hinv.1 e0 he0 hval
          rw [hc] at this
          injection this with h
          exact absurd h.symm hid
        · rfl

/-- `hideTooltip` preserves the invariant. -/
lemma TInv_hide (s : TooltipSys) (hinv : TInv s) : TInv (hideTooltip s) := by
  refine ⟨?_, ?_, ?_⟩
  · intro e he hf
    exact absurd (no_live_after_hide s hinv e he) (by rw [hf]; intro h; cases h)
  · unfold hideTooltip
    cases hc : s.current with
    | none => exact hinv.2.1
    | some c =>
        show ((s.doc.map fun e =>
          if e.id = c then { e with fadingOut := true } else e).map TElem.id).Nodup
        rw [hide_doc_ids]
        exact hinv.2.1
  · intro e he
    rw [hideTooltip_nextId]
    unfold hideTooltip at he
    cases hc : s.current with
    | none =>
        rw [hc] at he
        exact hinv.2.2 e he
    | some c =>
        rw [hc] at he
        simp only [List.mem_map] at he
        obtain ⟨e0, he0, heq⟩ := he
        have hid : e.id = e0.id := by
          by_cases h : e0.id = c
          · rw [if_pos h] at heq; rw [← heq]
          · rw [if_neg h] at heq; rw [← heq]
        rw [hid]
        exact hinv.2.2 e0 he0

/-- `showTooltip` preserves the invariant: the freshly appended element is
the unique current, non-fading tooltip. -/
lemma TInv_show (s : TooltipSys) (hinv : TInv s) : TInv (showTooltip s) := by
  have hinv1 := TInv_hide s hinv
  have hfade := no_live_after_hide s hinv
  refine ⟨?_, ?_, ?_⟩
  · intro e he hf
    show some (hideTooltip s).nextId = some e.id
    rcases List.mem_append.mp he with hl | hr
    · exact absurd (hfade e hl) (by rw [hf]; intro h; cases h)
    · rcases List.mem_singleton.mp hr with rfl
      rfl
  · show (((hideTooltip s).doc ++
        [TElem.mk (hideTooltip s).nextId false]).map TElem.id).Nodup
    rw [List.map_append]
    rw [List.nodup_append]
    refine ⟨hinv1.2.1, by simp, ?_⟩
    intro a ha hb
    have hlt : a < (hideTooltip s).nextId := by
      simp only [List.mem_map] at ha
      obtain ⟨e0, he0, rfl⟩ := ha
      exact hinv1.2.2 e0 he0
    have hb' : a = (hideTooltip s).nextId := by
      simpa using hb
    omega
  · intro e he
    show e.id < (hideTooltip s).nextId + 1
    rcases List.mem_append.mp he with hl | hr
    · have := hinv1.2.2 e hl
      omega
    · rcases List.mem_singleton.mp hr with rfl
      exact Nat.lt_succ_self _

/-- `fireRemovalTimer` preserves the invariant. -/
lemma TInv_fire (s : TooltipSys) (hinv : TInv s) : TInv (fireRemovalTimer s) := by
  unfold fireRemovalTimer
  by_cases ht : s.timers = 0
  · rw [if_pos ht]; exact hinv
  · rw [if_neg ht]
    cases hc : s.current with
    | none =>
        refine ⟨?_, hinv.2.1, hinv.2.2⟩
        intro e he hf
        exact absurd (hinv.1 e he hf) (by rw [hc]; intro h; cases h)
    | some c =>
        refine ⟨?_, ?_, ?_⟩
        · intro e he hf
          have hmem := List.mem_filter.mp he
          have := hinv.1 e hmem.1 hf
          rw [hc] at this
          injection this with h
          exact absurd (by simpa using hmem.2) (by simp [h])
        · exact List.Nodup.sublist ((List.filter_sublist _).map TElem.id)
            hinv.2.1
        · intro e he
          exact hinv.2.2 e (List.mem_filter.mp he).1

/-- Every reachable tooltip-system state satisfies the invariant. -/
lemma TInv_reachable {s : TooltipSys} (hr : TReachable s) : TInv s := by
  induction hr with
  | init => exact ⟨by simp [initTooltipSys], by simp [initTooltipSys],
      by simp [initTooltipSys]⟩
  | step _ hstep ih =>
      cases hstep with
      | showEvent => exact TInv_show _ ih
      | hideEvent => exact TInv_hide _ ih
      | fireEvent => exact TInv_fire _ ih

/-- A list of elements with pairwise-distinct ids that all carry the same id
has at most one element. -/
lemma length_le_one_of_same_id (l : List TElem) (c : Nat)
    (hn : (l.map TElem.id).Nodup) (hall : ∀ e ∈ l, e.id = c) :
    l.length ≤ 1 := by
  cases l with
  | nil => simp
  | cons e rest =>
      cases rest with
      | nil => simp
      | cons e2 rest2 =>
          exfalso
          have h1 : e.id = c := hall e (by simp)
          have h2 : e2.id = c := hall e2 (by simp)
          rw [List.map_cons, List.map_cons, List.nodup_cons] at hn
          exact hn.1 (by rw [h1, h2]; exact List.mem_cons_self _ _)

/-- In any invariant state, at most one tooltip element is not fading out. -/
lemma live_length_le_one (s : TooltipSys) (hinv : TInv s) :
    (liveTooltips s).length ≤ 1 := by
  cases hc : s.current with
  | none =>
      have hempty : liveTooltips s = [] := by
        unfold liveTooltips
        rw [List.filter_eq_nil_iff]
        intro e he hval
        have hf : e.fadingOut = false := by simpa using hval
        exact absurd (hinv.1 e he hf) (by rw [hc]; intro h; cases h)
      rw [hempty]
      simp
  | some c =>
      apply length_le_one_of_same_id _ c
      · exact List.Nodup.sublist ((List.filter_sublist _).map TElem.id) hinv.2.1
      · intro e he
        have hmem := List.mem_filter.mp he
        have hf : e.fadingOut = false := by simpa using hmem.2
        have := hinv.1 e hmem.1 hf
        rw [hc] at this
        injection this with h
        exact h.symm

/-- C6: the claim as stated is false: showing a tooltip while one is already
current reaches a state with two `.global-tooltip` elements in the document,
because `hideTooltip` removes the prior element only in a 200ms `setTimeout`
callback, not immediately. -/
theorem C6_singleTooltip_counterexample :
    TReachable (showTooltip (showTooltip initTooltipSys)) ∧
    (showTooltip (showTooltip initTooltipSys)).doc.length = 2 :=
  ⟨TReachable.step (TReachable.step TReachable.init (TStep.showEvent _))
      (TStep.showEvent _),
    by decide⟩

/-- C6: corrected.  Showing a new tooltip immediately starts the prior
tooltip's fade-out (its opacity is set to 0 at once) but its removal from
the document happens only when the 200ms timer fires, so two tooltip
elements may coexist briefly.  What holds at every reachable state is that
at most one tooltip element is not fading out, and after any `showTooltip`
the only non-fading element is the freshly created one. -/
theorem C6_singleTooltip_amended (s : TooltipSys) (hr : TReachable s) :
    (liveTooltips s).length ≤ 1 ∧
    (∀ e ∈ (showTooltip s).doc, e.fadingOut = false → e.id = s.nextId) := by
  have hinv := TInv_reachable hr
  refine ⟨live_length_le_one s hinv, ?_⟩
  intro e he hf
  have hcur := (TInv_show s hinv).1 e he hf
  have hshow : (showTooltip s).current = some s.nextId := by
    show some (hideTooltip s).nextId = some s.nextId
    rw [hideTooltip_nextId]
  rw [hshow] at hcur
  injection hcur with h
  exact h.symm

/-- C6 witness: the amended statement at the reachable state with one
tooltip shown. -/
theorem C6_singleTooltip_witness :
    (liveTooltips (showTooltip initTooltipSys)).length ≤ 1 ∧
    (∀ e ∈ (showTooltip (showTooltip initTooltipSys)).doc,
      e.fadingOut = false → e.id = (showTooltip initTooltipSys).nextId) :=
  C6_singleTooltip_amended (showTooltip initTooltipSys)
    (TReachable.step TReachable.init (TStep.showEvent _))

/-- C3 witness: the amended characterization evaluated at `#ff0000`. -/
theorem C3_isValidColor_witness :
    isValidColor "#ff0000" = true ↔ specHexColor "#ff0000" :=
  C3_isValidColor_amended.1 "#ff0000"
